import Mathlib

/-
Verification of the operator-resolution subsystem found in
src/src/librustc_typeck/check/op.rs.

The development shallowly embeds the functions of that file.  External
collaborators (the expression checker, the inference engine, trait method
lookup) are modelled as an environment of oracles, and the side effects the
checker performs (checking operands, creating inference variables, invoking
the overload resolver, emitting diagnostics, applying adjustments, recording
method calls) are recorded in an explicit event log so that ordering and
"never happens" properties can be stated.
-/

namespace OpCheck

/-- Mutability of a reference, as in rustc_middle (hir::Mutability). -/
inductive Mutability where
  | not
  | mut'
deriving DecidableEq

/-- Modelled from the spec: the type representation is an external collaborator
("an opaque handle into the inference engine's type representation; may be a
concrete type, an unresolved inference variable, or an error sentinel", spec
section 3, section 9).  The constructors mirror the rustc_middle TyKind
variants the checked file inspects: integral and floating point machine
types, bool, char, str, the never type, unit (an empty tuple, produced by
tcx.mk_unit), nominal adt types, fn items, references, general type inference
variables (Infer(TyVar)), integer- and float-literal inference variables
(Infer(IntVar) / Infer(FloatVar)), and the error sentinel. -/
inductive Ty where
  | bool
  | char
  | str
  | never
  | unit
  | int (n : Nat)
  | uint (n : Nat)
  | float (n : Nat)
  | adt (id : Nat)
  | fnDef (id : Nat)
  | ref (m : Mutability) (t : Ty)
  | tyVar (id : Nat)
  | intVar (id : Nat)
  | floatVar (id : Nat)
  | err
deriving DecidableEq

/-- Modelled from the spec: capability query of the type collaborator (spec
section 9: "integral/floating/boolean/scalar/reference/error/other").  True
when the error sentinel occurs anywhere inside the type
(rustc: Ty::references_error). -/
def Ty.references_error : Ty → Bool
  | .err => true
  | .ref _ t => t.references_error
  | _ => false

/-- Modelled from the spec: capability query.  Integral machine types and
unresolved integer-literal inference variables (rustc: Ty::is_integral). -/
def Ty.is_integral : Ty → Bool
  | .int _ => true
  | .uint _ => true
  | .intVar _ => true
  | _ => false

/-- Modelled from the spec: capability query (rustc: Ty::is_floating_point). -/
def Ty.is_floating_point : Ty → Bool
  | .float _ => true
  | .floatVar _ => true
  | _ => false

/-- Modelled from the spec: capability query (rustc: Ty::is_bool). -/
def Ty.is_bool : Ty → Bool
  | .bool => true
  | _ => false

/-- Modelled from the spec: capability query (rustc: Ty::is_scalar): bool,
char, machine integers and floats, integer/float inference variables and fn
items count as scalar; references and the error sentinel do not. -/
def Ty.is_scalar : Ty → Bool
  | .bool => true
  | .char => true
  | .int _ => true
  | .uint _ => true
  | .float _ => true
  | .intVar _ => true
  | .floatVar _ => true
  | .fnDef _ => true
  | _ => false

/-- Modelled from the spec: capability query (rustc: Ty::is_ty_var).  True
only for a general type inference variable at the top level; integer- and
float-literal inference variables are a different Infer kind and return
false. -/
def Ty.is_ty_var : Ty → Bool
  | .tyVar _ => true
  | _ => false

/-- Modelled from the spec: "fully concrete (no unresolved variables)" (spec
section 3).  True when an inference variable of any kind occurs anywhere
inside the type.  This is the notion of concreteness the spec invariant talks
about; it is deliberately distinct from Ty.is_ty_var. -/
def Ty.containsInferVar : Ty → Bool
  | .tyVar _ => true
  | .intVar _ => true
  | .floatVar _ => true
  | .ref _ t => t.containsInferVar
  | _ => false

/-- Binary operator tokens (hir::BinOpKind). -/
inductive BinOpKind where
  | add
  | sub
  | mul
  | div
  | rem
  | and
  | or
  | bitXor
  | bitAnd
  | bitOr
  | shl
  | shr
  | eq
  | lt
  | le
  | ne
  | ge
  | gt
deriving DecidableEq

/-- Modelled from the spec: hir::BinOpKind::is_comparison lives outside the
checked file; comparison operators are the equality and ordering tests. -/
def BinOpKind.is_comparison : BinOpKind → Bool
  | .eq => true
  | .ne => true
  | .lt => true
  | .le => true
  | .ge => true
  | .gt => true
  | _ => false

/-- Modelled from the spec: hir::BinOpKind::is_by_value lives outside the
checked file.  Comparison operators take their operands by reference
("pass-by-reference operators", spec section 4.4); every other binary
operator takes them by value. -/
def BinOpKind.is_by_value (op : BinOpKind) : Bool :=
  !op.is_comparison

/-- Unary operator tokens (hir::UnOp). -/
inductive UnOp where
  | unNot
  | unNeg
  | unDeref
deriving DecidableEq

/-- Modelled from the spec: hir::UnOp::is_by_value lives outside the checked
file; negation and logical not consume their operand, dereference does not. -/
def UnOp.is_by_value : UnOp → Bool
  | .unNot => true
  | .unNeg => true
  | .unDeref => false

/-- Whether the binary operation is an assignment (a += b) or not (a + b). -/
inductive IsAssign where
  | no
  | yes
deriving DecidableEq

/-- Operator shape handed to lookup_op_method (enum Op in the source; spans
are dropped by the embedding). -/
inductive Op where
  | binary (op : BinOpKind) (is_assign : IsAssign)
  | unary (op : UnOp)
deriving DecidableEq

/-- Binary operator categories (enum BinOpCategory in the source). -/
inductive BinOpCategory where
  | shortcircuit
  | shift
  | math
  | bitwise
  | comparison
deriving DecidableEq

/-- Translation of BinOpCategory::from in the source. -/
def BinOpCategory.fromOp : BinOpKind → BinOpCategory
  | .shl => .shift
  | .shr => .shift
  | .add => .math
  | .sub => .math
  | .mul => .math
  | .div => .math
  | .rem => .math
  | .bitXor => .bitwise
  | .bitAnd => .bitwise
  | .bitOr => .bitwise
  | .eq => .comparison
  | .ne => .comparison
  | .lt => .comparison
  | .le => .comparison
  | .ge => .comparison
  | .gt => .comparison
  | .and => .shortcircuit
  | .or => .shortcircuit

/-- Translation of deref_ty_if_possible: dereferences a single level of
immutable referencing. -/
def deref_ty_if_possible : Ty → Ty
  | .ref .not t => t
  | t => t

/-- Translation of is_builtin_binop: returns true if this is a built-in
arithmetic operation and false if these types would have to be overloaded to
be legal.  A single layer of immutable referencing is special-cased first. -/
def is_builtin_binop (lhs rhs : Ty) (op : BinOpKind) : Bool :=
  let lhs := deref_ty_if_possible lhs
  let rhs := deref_ty_if_possible rhs
  match BinOpCategory.fromOp op with
  | .shortcircuit => true
  | .shift =>
      lhs.references_error || rhs.references_error
        || (lhs.is_integral && rhs.is_integral)
  | .math =>
      lhs.references_error || rhs.references_error
        || (lhs.is_integral && rhs.is_integral)
        || (lhs.is_floating_point && rhs.is_floating_point)
  | .bitwise =>
      lhs.references_error || rhs.references_error
        || (lhs.is_integral && rhs.is_integral)
        || (lhs.is_floating_point && rhs.is_floating_point)
        || (lhs.is_bool && rhs.is_bool)
  | .comparison =>
      lhs.references_error || rhs.references_error
        || (lhs.is_scalar && rhs.is_scalar)

/-- Expression identifiers (hir node ids); opaque to the checker. -/
abbrev ExprId := Nat

/-- Placement requirement for checking an expression (Needs in the source). -/
inductive Needs where
  | none
  | mutPlace
deriving DecidableEq

/-- Two-phase-borrow eligibility flag (AllowTwoPhase in rustc). -/
inductive AllowTwoPhase where
  | no
  | yes
deriving DecidableEq

/-- Mutability of an inserted auto-reference (AutoBorrowMutability). -/
inductive AutoBorrowMutability where
  | not
  | mut' (allow_two_phase_borrow : AllowTwoPhase)
deriving DecidableEq

/-- Signature of a resolved callee (method.sig in the source). -/
structure FnSig where
  inputs : List Ty
  output : Ty
deriving DecidableEq

/-- Result of successful overload dispatch (MethodCallee in the source). -/
structure MethodCallee where
  defId : Nat
  sig : FnSig
deriving DecidableEq

/-- Observable actions of the checker, recorded in order.  Each constructor
marks one call the source makes into an external collaborator (or, for
builtinQueried, the evaluation of is_builtin_binop behind its guards). -/
inductive Event where
  | checkedExpr (e : ExprId) (needs : Needs)
  | checkedCoercible (e : ExprId) (expected : Ty)
  | coerced (e : ExprId) (target : Ty)
  | freshVar (v : Nat)
  | resolverInvoked (lhs : Ty) (opname : String)
  | builtinQueried (lhs rhs : Ty)
  | demandedSuptype (expected actual : Ty)
  | adjusted (e : ExprId) (target : Ty) (m : AutoBorrowMutability)
  | wroteMethodCall (e : ExprId) (m : MethodCallee)
  | emittedDiag (code : String)
  | checkedLhsAssignable (e : ExprId) (code : String)
  | spanBugTriggered (msg : String)
deriving DecidableEq

/-- Classifier of events that can only come from the terminal
(overload-outcome) phase of check_overloaded_binop. -/
def Event.isOutcome : Event → Bool
  | .adjusted _ _ _ => true
  | .wroteMethodCall _ _ => true
  | .emittedDiag _ => true
  | _ => false

/-- Modelled from the spec: the external collaborators of section 6, as a
record of oracles.  checkWithNeeds and checkCoercible give the type the
surrounding expression checker infers for an operand; exprDiverges is the
divergence contribution that checking the operand joins into the checker's
diverges flag; coerceResult is the supertype demand_coerce settles on;
resolveVars and resolveIfPossible model the two inference resolution entry
points; lookupMethod models lookup_method_in_trait (None both when the lang
item is absent and when no impl matches). -/
structure Env where
  checkWithNeeds : ExprId → Needs → Ty
  checkCoercible : ExprId → Ty → Ty
  exprDiverges : ExprId → Bool
  coerceResult : ExprId → Ty → Ty → Ty
  resolveVars : Ty → Ty
  resolveIfPossible : Ty → Ty
  lookupMethod : Ty → List Ty → String → Option MethodCallee

/-- Mutable checker state threaded through one operator-expression check:
the fresh-inference-variable counter, the diverges cell, and the event log. -/
structure St where
  nextVar : Nat
  diverges : Bool
  log : List Event
deriving DecidableEq

/-- Appends one event to the log. -/
def emit (ev : Event) (st : St) : St :=
  { st with log := st.log ++ [ev] }

/-- Wrapper for check_expr_with_needs: obtains the operand's type from the
external checker and joins the operand's divergence into the diverges cell. -/
def checkExprWithNeeds (env : Env) (e : ExprId) (needs : Needs) (st : St) :
    Ty × St :=
  (env.checkWithNeeds e needs,
   emit (.checkedExpr e needs)
     { st with diverges := st.diverges || env.exprDiverges e })

/-- Wrapper for check_expr_coercable_to_type, with the same divergence
bookkeeping. -/
def checkExprCoercibleToType (env : Env) (e : ExprId) (expected : Ty)
    (st : St) : Ty × St :=
  (env.checkCoercible e expected,
   emit (.checkedCoercible e expected)
     { st with diverges := st.diverges || env.exprDiverges e })

/-- Wrapper for next_ty_var: creates a fresh general inference variable. -/
def nextTyVar (st : St) : Ty × St :=
  (Ty.tyVar st.nextVar, emit (.freshVar st.nextVar) { st with nextVar := st.nextVar + 1 })

/-- Wrapper for demand_coerce: records the coercion and returns the type the
inference collaborator settles on. -/
def demandCoerce (env : Env) (e : ExprId) (ty target : Ty) (st : St) :
    Ty × St :=
  (env.coerceResult e ty target, emit (.coerced e target) st)

/-- Wrapper for demand_suptype: records the subtype assertion (the external
collaborator emits a mismatch diagnostic if violated). -/
def demandSuptype (expected actual : Ty) (st : St) : St :=
  emit (.demandedSuptype expected actual) st

/-- Translation of the static operator-to-method-name table inside
lookup_op_method.  None marks the arms the source turns into a span_bug
(comparison operators in assignment position, short-circuit operators in
either position, and unary dereference). -/
def op_method_name : Op → Option String
  | .binary .add .yes => some ("add_assign")
  | .binary .sub .yes => some ("sub_assign")
  | .binary .mul .yes => some ("mul_assign")
  | .binary .div .yes => some ("div_assign")
  | .binary .rem .yes => some ("rem_assign")
  | .binary .bitXor .yes => some ("bitxor_assign")
  | .binary .bitAnd .yes => some ("bitand_assign")
  | .binary .bitOr .yes => some ("bitor_assign")
  | .binary .shl .yes => some ("shl_assign")
  | .binary .shr .yes => some ("shr_assign")
  | .binary .lt .yes => none
  | .binary .le .yes => none
  | .binary .ge .yes => none
  | .binary .gt .yes => none
  | .binary .eq .yes => none
  | .binary .ne .yes => none
  | .binary .and .yes => none
  | .binary .or .yes => none
  | .binary .add .no => some ("add")
  | .binary .sub .no => some ("sub")
  | .binary .mul .no => some ("mul")
  | .binary .div .no => some ("div")
  | .binary .rem .no => some ("rem")
  | .binary .bitXor .no => some ("bitxor")
  | .binary .bitAnd .no => some ("bitand")
  | .binary .bitOr .no => some ("bitor")
  | .binary .shl .no => some ("shl")
  | .binary .shr .no => some ("shr")
  | .binary .lt .no => some ("lt")
  | .binary .le .no => some ("le")
  | .binary .ge .no => some ("ge")
  | .binary .gt .no => some ("gt")
  | .binary .eq .no => some ("eq")
  | .binary .ne .no => some ("ne")
  | .binary .and .no => none
  | .binary .or .no => none
  | .unary .unNot => some ("not")
  | .unary .unNeg => some ("neg")
  | .unary .unDeref => none

/-- Messages of the span_bug arms reached when op_method_name has no entry. -/
def op_bug_msg : Op → String
  | .binary _ .yes => "impossible assignment operation"
  | .binary _ .no => "and and or are not overloadable"
  | .unary _ => "lookup_op_method: op not supported"

/-- Outcome of lookup_op_method.  The source returns Result<MethodCallee, ()>
but panics via span_bug on operators that are not in the method-name table;
bug records that hard internal-consistency failure. -/
inductive LookupOutcome where
  | ok (m : MethodCallee)
  | errNotFound
  | bug (msg : String)
deriving DecidableEq

/-- Translation of lookup_op_method: maps the operator to a method name via
the static table (span_bug when absent), then invokes the external trait
method lookup with the left type as receiver.  Registration of inference
obligations on success is an action of the inference collaborator and is left
inside env.lookupMethod. -/
def lookup_op_method (env : Env) (lhs_ty : Ty) (other_tys : List Ty) (op : Op)
    (st : St) : LookupOutcome × St :=
  match op_method_name op with
  | none =>
      (.bug (op_bug_msg op), emit (.spanBugTriggered (op_bug_msg op)) st)
  | some opname =>
      let st := emit (.resolverInvoked lhs_ty opname) st
      match env.lookupMethod lhs_ty other_tys opname with
      | some m => (.ok m, st)
      | none => (.errNotFound, st)

/-- Maps a callee-signature reference mutability to the inserted auto-borrow
mutability; mutable borrows allow two-phase borrowing ("Allow two-phase
borrows for binops in initial deployment since they desugar to methods"). -/
def autoBorrowOf : Mutability → AutoBorrowMutability
  | .not => .not
  | .mut' => .mut' .yes

/-- The autoref block the source repeats for inputs()[0] (lines 206-220) and
inputs()[1] (lines 223-246): when the callee signature declares the input as
reference-typed, an adjustment borrowing the operand at that type is applied;
otherwise nothing happens. -/
def autorefAdjustment (e : ExprId) (input : Ty) : List Event :=
  match input with
  | .ref mutbl inner => [.adjusted e (.ref mutbl inner) (autoBorrowOf mutbl)]
  | _ => []

/-- Translation of enforce_builtin_binop_types.  The single immutable
reference layer is stripped from both operand types first; the category then
determines which equal-type assertion is recorded and which type is the
result. -/
def enforce_builtin_binop_types (lhs_ty rhs_ty : Ty) (op : BinOpKind)
    (st : St) : Ty × St :=
  let lhs_ty := deref_ty_if_possible lhs_ty
  let rhs_ty := deref_ty_if_possible rhs_ty
  match BinOpCategory.fromOp op with
  | .shortcircuit =>
      (Ty.bool, demandSuptype Ty.bool rhs_ty (demandSuptype Ty.bool lhs_ty st))
  | .shift =>
      (lhs_ty, st)
  | .math =>
      (lhs_ty, demandSuptype lhs_ty rhs_ty st)
  | .bitwise =>
      (lhs_ty, demandSuptype lhs_ty rhs_ty st)
  | .comparison =>
      (Ty.bool, demandSuptype lhs_ty rhs_ty st)

/-- Translation of check_overloaded_binop.  The left operand is checked (for
plain operators: checked with no placement requirement and coerced to a fresh
inference variable; for compound assignment: checked demanding an exact
mutable place with no coercion), the result is resolved, a fresh variable is
created for the still-unchecked right operand, the overload resolver is
consulted with that variable as sole candidate, only then is the right
operand checked against the variable and resolved, and finally the lookup
outcome is acted on: on success the autoref adjustments dictated by the
callee signature are applied (left operand for assignment or
pass-by-reference operators, right operand for pass-by-reference operators)
and the method call is recorded; on failure a diagnostic is emitted unless
either resolved operand type references the error sentinel, and the error
sentinel is returned.  The detailed suggestion machinery of the diagnostic
path is folded into the single emittedDiag event (the spec treats the
Diagnostic Advisor as stubbable). -/
def check_overloaded_binop (env : Env) (expr lhs_expr rhs_expr : ExprId)
    (op : BinOpKind) (is_assign : IsAssign) (st : St) :
    (Ty × Ty × Ty) × St :=
  let p1 :=
    match is_assign with
    | .no =>
        let r0 := checkExprWithNeeds env lhs_expr Needs.none st
        let r1 := nextTyVar r0.2
        demandCoerce env lhs_expr r0.1 r1.1 r1.2
    | .yes =>
        checkExprWithNeeds env lhs_expr Needs.mutPlace st
  let lhs_ty := env.resolveVars p1.1
  let st := p1.2
  let p2 := nextTyVar st
  let rhs_ty_var := p2.1
  let st := p2.2
  let p3 := lookup_op_method env lhs_ty [rhs_ty_var] (.binary op is_assign) st
  let result := p3.1
  let st := p3.2
  let p4 := checkExprCoercibleToType env rhs_expr rhs_ty_var st
  let rhs_ty := env.resolveVars p4.1
  let st := p4.2
  let p5 :=
    match result with
    | .ok method =>
        let by_ref_binop := !op.is_by_value
        let st :=
          if is_assign = IsAssign.yes ∨ by_ref_binop = true then
            { st with
              log := st.log
                ++ autorefAdjustment lhs_expr (method.sig.inputs.getD 0 Ty.err) }
          else st
        let st :=
          if by_ref_binop = true then
            { st with
              log := st.log
                ++ autorefAdjustment rhs_expr (method.sig.inputs.getD 1 Ty.err) }
          else st
        let st := emit (.wroteMethodCall expr method) st
        (method.sig.output, st)
    | .errNotFound =>
        let st :=
          if !lhs_ty.references_error && !rhs_ty.references_error then
            emit
              (.emittedDiag
                (match is_assign with
                 | .yes => "E0368"
                 | .no => "E0369")) st
          else st
        (Ty.err, st)
    | .bug _ =>
        (Ty.err, st)
  ((lhs_ty, rhs_ty, p5.1), p5.2)

/-- The non-shortcircuit arm of check_binop, factored out for reasoning: the
operands go through check_overloaded_binop; afterwards, if neither resolved
operand type is a type variable, is_builtin_binop is evaluated (recorded as
builtinQueried) and, when it holds, the builtin result type is derived and
asserted to be a supertype of the overload result type. -/
def check_binop_overload_path (env : Env) (expr lhs_expr rhs_expr : ExprId)
    (op : BinOpKind) (st : St) : Ty × St :=
  let p := check_overloaded_binop env expr lhs_expr rhs_expr op .no st
  let lhs_ty := p.1.1
  let rhs_ty := p.1.2.1
  let return_ty := p.1.2.2
  let st := p.2
  let st :=
    if lhs_ty.is_ty_var = false ∧ rhs_ty.is_ty_var = false then
      let st := emit (.builtinQueried lhs_ty rhs_ty) st
      if is_builtin_binop lhs_ty rhs_ty op = true then
        let q := enforce_builtin_binop_types lhs_ty rhs_ty op st
        demandSuptype q.1 return_ty q.2
      else st
    else st
  (return_ty, st)

/-- Translation of check_binop.  Short-circuit operators bypass overload
machinery entirely: both operands are checked as boolean-coercible, the
divergence state observed after the left operand is restored once the right
operand has been checked, and the result is boolean.  All other operators go
through the overload path above. -/
def check_binop (env : Env) (expr lhs_expr rhs_expr : ExprId)
    (op : BinOpKind) (st : St) : Ty × St :=
  match BinOpCategory.fromOp op with
  | .shortcircuit =>
      let q1 := checkExprCoercibleToType env lhs_expr Ty.bool st
      let lhs_diverges := q1.2.diverges
      let q2 := checkExprCoercibleToType env rhs_expr Ty.bool q1.2
      let st := { q2.2 with diverges := lhs_diverges }
      (Ty.bool, st)
  | _ =>
      check_binop_overload_path env expr lhs_expr rhs_expr op st

/-- Translation of check_binop_assign.  The operands go through
check_overloaded_binop in assignment mode; if neither resolved operand type
is a type variable and the pair is builtin, the builtin constraints are
enforced and the expression's type is unit, otherwise the overload result
type; in every case the left operand is then checked to be an assignable
place (error code E0067). -/
def check_binop_assign (env : Env) (expr lhs_expr rhs_expr : ExprId)
    (op : BinOpKind) (st : St) : Ty × St :=
  let p := check_overloaded_binop env expr lhs_expr rhs_expr op .yes st
  let lhs_ty := p.1.1
  let rhs_ty := p.1.2.1
  let return_ty := p.1.2.2
  let st := p.2
  let q :=
    if lhs_ty.is_ty_var = false ∧ rhs_ty.is_ty_var = false then
      let st := emit (.builtinQueried lhs_ty rhs_ty) st
      if is_builtin_binop lhs_ty rhs_ty op = true then
        let r := enforce_builtin_binop_types lhs_ty rhs_ty op st
        (Ty.unit, r.2)
      else (return_ty, st)
    else (return_ty, st)
  let st := emit (.checkedLhsAssignable lhs_expr ("E0067")) q.2
  (q.1, st)

/-- Translation of check_user_unop: asserts the operator is by-value, asks
the overload resolver with no candidate argument types, records the callee
and returns its output type on success; on failure, resolves the operand type
as far as possible and, unless it references the error sentinel, emits the
E0600 diagnostic, returning the error sentinel either way. -/
def check_user_unop (env : Env) (ex : ExprId) (operand_ty : Ty) (op : UnOp)
    (st : St) : Ty × St :=
  if op.is_by_value = false then
    (Ty.err, emit (.spanBugTriggered ("assertion failed: op.is_by_value")) st)
  else
    let p := lookup_op_method env operand_ty [] (.unary op) st
    match p.1 with
    | .ok method =>
        let st := emit (.wroteMethodCall ex method) p.2
        (method.sig.output, st)
    | .errNotFound =>
        let actual := env.resolveIfPossible operand_ty
        let st :=
          if !actual.references_error then emit (.emittedDiag ("E0600")) p.2
          else p.2
        (Ty.err, st)
    | .bug _ =>
        (Ty.err, p.2)

/-- The resolved left-operand type check_overloaded_binop computes before
consulting the overload resolver, as a function of the environment, the
left operand and the fresh-variable counter at entry. -/
def lhsTyOf (env : Env) (l : ExprId) (is_assign : IsAssign) (n : Nat) : Ty :=
  match is_assign with
  | .no => env.resolveVars (env.coerceResult l (env.checkWithNeeds l Needs.none) (Ty.tyVar n))
  | .yes => env.resolveVars (env.checkWithNeeds l Needs.mutPlace)

/-- Index of the fresh inference variable check_overloaded_binop creates for
the right operand, given the counter at entry. -/
def rhsVarIdx : IsAssign → Nat → Nat
  | .no, n => n + 1
  | .yes, n => n

/-- The resolved right-operand type check_overloaded_binop computes, as a
function of the environment, the right operand and the fresh variable it was
checked against. -/
def rhsTyOf (env : Env) (r : ExprId) (v : Nat) : Ty :=
  env.resolveVars (env.checkCoercible r (Ty.tyVar v))

/-- The events of the left-operand phase of check_overloaded_binop (before
the overload resolver is consulted), as a function of the assignment mode and
the fresh-variable counter at entry. -/
def lhsPhaseEvents (l : ExprId) (is_assign : IsAssign) (n : Nat) : List Event :=
  match is_assign with
  | .no => [.checkedExpr l Needs.none, .freshVar n, .coerced l (.tyVar n), .freshVar (n + 1)]
  | .yes => [.checkedExpr l Needs.mutPlace, .freshVar n]

/-- Number of fresh inference variables check_overloaded_binop creates: one
for the left operand's coercion supertype (plain mode only) and one for the
right operand. -/
def overloadVarCount : IsAssign → Nat
  | .no => 2
  | .yes => 1

/-- The events the successful-lookup arm of check_overloaded_binop appends
after the right operand has been checked: the conditional autoref
adjustments and the method-call record. -/
def okTailEvents (expr l r : ExprId) (op : BinOpKind) (is_assign : IsAssign)
    (m : MethodCallee) : List Event :=
  (if is_assign = IsAssign.yes ∨ (!op.is_by_value) = true
   then autorefAdjustment l (m.sig.inputs.getD 0 Ty.err)
   else [])
  ++ (if (!op.is_by_value) = true
      then autorefAdjustment r (m.sig.inputs.getD 1 Ty.err)
      else [])
  ++ [.wroteMethodCall expr m]

/-- The events the failed-lookup arm of check_overloaded_binop appends: one
diagnostic unless either resolved operand type references the error
sentinel. -/
def errTailEvents (lhs_ty rhs_ty : Ty) (is_assign : IsAssign) : List Event :=
  if !lhs_ty.references_error && !rhs_ty.references_error then
    [.emittedDiag
      (match is_assign with
       | .yes => "E0368"
       | .no => "E0369")]
  else []

/-- The equal-type assertions enforce_builtin_binop_types records, by
category. -/
def enforceDemands (lhs_ty rhs_ty : Ty) (op : BinOpKind) : List Event :=
  match BinOpCategory.fromOp op with
  | .shortcircuit =>
      [.demandedSuptype Ty.bool (deref_ty_if_possible lhs_ty),
       .demandedSuptype Ty.bool (deref_ty_if_possible rhs_ty)]
  | .shift => []
  | .math =>
      [.demandedSuptype (deref_ty_if_possible lhs_ty) (deref_ty_if_possible rhs_ty)]
  | .bitwise =>
      [.demandedSuptype (deref_ty_if_possible lhs_ty) (deref_ty_if_possible rhs_ty)]
  | .comparison =>
      [.demandedSuptype (deref_ty_if_possible lhs_ty) (deref_ty_if_possible rhs_ty)]

/-- The result type enforce_builtin_binop_types derives, as a pure
function. -/
def enforceResultTy (lhs_ty rhs_ty : Ty) (op : BinOpKind) : Ty :=
  (enforce_builtin_binop_types lhs_ty rhs_ty op ⟨0, false, []⟩).1

/-- The events the builtin-reconciliation phase of check_binop appends after
check_overloaded_binop has returned. -/
def builtinGuardEvents (lhs_ty rhs_ty return_ty : Ty) (op : BinOpKind) :
    List Event :=
  if lhs_ty.is_ty_var = false ∧ rhs_ty.is_ty_var = false then
    .builtinQueried lhs_ty rhs_ty
      :: (if is_builtin_binop lhs_ty rhs_ty op = true then
            enforceDemands lhs_ty rhs_ty op
              ++ [.demandedSuptype (enforceResultTy lhs_ty rhs_ty op) return_ty]
          else [])
  else []

/-- The events the builtin-reconciliation phase of check_binop_assign
appends (no reconciliation assertion is recorded there; the result type is
replaced by unit instead). -/
def builtinGuardEventsAssign (lhs_ty rhs_ty : Ty) (op : BinOpKind) :
    List Event :=
  if lhs_ty.is_ty_var = false ∧ rhs_ty.is_ty_var = false then
    .builtinQueried lhs_ty rhs_ty
      :: (if is_builtin_binop lhs_ty rhs_ty op = true then
            enforceDemands lhs_ty rhs_ty op
          else [])
  else []

/-- Environment used for the C4 counterexample: the right operand resolves
to an unresolved integer-literal inference variable (as in 1u32 << 2 before
the literal 2 is pinned down), which is not a general type variable, so the
builtin check runs against it. -/
def envC4ce : Env where
  checkWithNeeds := fun _ _ => Ty.uint 32
  checkCoercible := fun _ _ => Ty.intVar 7
  exprDiverges := fun _ => false
  coerceResult := fun _ _ _ => Ty.uint 32
  resolveVars := fun t => t
  resolveIfPossible := fun t => t
  lookupMethod := fun _ _ _ => none

/-- Environment used to instantiate the C4 amended theorem. -/
def envC4w : Env where
  checkWithNeeds := fun _ _ => Ty.uint 32
  checkCoercible := fun _ _ => Ty.uint 32
  exprDiverges := fun _ => false
  coerceResult := fun _ _ _ => Ty.uint 32
  resolveVars := fun t => t
  resolveIfPossible := fun t => t
  lookupMethod := fun _ _ _ => none

/-- Environment used to instantiate the C7 theorem: a lookup that always
succeeds, showing the place check happens even when an assignment-operator
impl exists. -/
def envC7w : Env where
  checkWithNeeds := fun _ _ => Ty.adt 0
  checkCoercible := fun _ _ => Ty.adt 0
  exprDiverges := fun _ => false
  coerceResult := fun _ _ _ => Ty.adt 0
  resolveVars := fun t => t
  resolveIfPossible := fun t => t
  lookupMethod := fun _ _ _ =>
    some ⟨0, ⟨[Ty.ref .mut' (Ty.adt 0), Ty.adt 0], Ty.unit⟩⟩

/-- Environment used to instantiate the C8 theorem: both operands resolve to
the error sentinel and no impl is found. -/
def envC8w : Env where
  checkWithNeeds := fun _ _ => Ty.err
  checkCoercible := fun _ _ => Ty.err
  exprDiverges := fun _ => false
  coerceResult := fun _ _ _ => Ty.err
  resolveVars := fun t => t
  resolveIfPossible := fun t => t
  lookupMethod := fun _ _ _ => none

/-- Callee used to instantiate the C9 theorem: an eq-style signature taking
the left operand by immutable reference and the right operand by mutable
reference, returning bool. -/
def mC9 : MethodCallee :=
  ⟨5, ⟨[Ty.ref .not (Ty.adt 3), Ty.ref .mut' (Ty.adt 3)], Ty.bool⟩⟩

/-- Environment used to instantiate the C9 theorem. -/
def envC9w : Env where
  checkWithNeeds := fun _ _ => Ty.adt 3
  checkCoercible := fun _ _ => Ty.adt 3
  exprDiverges := fun _ => false
  coerceResult := fun _ _ _ => Ty.adt 3
  resolveVars := fun t => t
  resolveIfPossible := fun t => t
  lookupMethod := fun _ _ _ => some mC9

/-- Environment used to instantiate the C5 theorem at a concrete input. -/
def envC5w : Env where
  checkWithNeeds := fun _ _ => Ty.uint 32
  checkCoercible := fun _ _ => Ty.bool
  exprDiverges := fun _ => false
  coerceResult := fun _ _ _ => Ty.uint 32
  resolveVars := fun t => t
  resolveIfPossible := fun t => t
  lookupMethod := fun _ _ _ => none

/-- Environment used to instantiate the C6 theorem at a concrete input: the
left operand diverges, the right operand does not. -/
def envC6w : Env where
  checkWithNeeds := fun _ _ => Ty.bool
  checkCoercible := fun _ _ => Ty.bool
  exprDiverges := fun e => e == 1
  coerceResult := fun _ _ _ => Ty.bool
  resolveVars := fun t => t
  resolveIfPossible := fun t => t
  lookupMethod := fun _ _ _ => none

/-- Environment used to instantiate the C10 theorem at a concrete input: both
operands fail to check and come back as the error sentinel. -/
def envC10w : Env where
  checkWithNeeds := fun _ _ => Ty.err
  checkCoercible := fun _ _ => Ty.err
  exprDiverges := fun _ => false
  coerceResult := fun _ _ _ => Ty.err
  resolveVars := fun t => t
  resolveIfPossible := fun t => t
  lookupMethod := fun _ _ _ => none

theorem references_error_deref (t : Ty) :
    (deref_ty_if_possible t).references_error = t.references_error := by
  cases t
  case ref m inner => cases m <;> rfl
  all_goals rfl

theorem builtin_false_of_ref_operand (lhs rhs : Ty) (op : BinOpKind)
    (hsc : BinOpCategory.fromOp op ≠ .shortcircuit)
    (h : (∃ m t, deref_ty_if_possible lhs = Ty.ref m t)
         ∨ (∃ m t, deref_ty_if_possible rhs = Ty.ref m t))
    (hle : lhs.references_error = false)
    (hre : rhs.references_error = false) :
    is_builtin_binop lhs rhs op = false := by
  have h1 : (deref_ty_if_possible lhs).references_error = false := by
    rw [references_error_deref]; exact hle
  have h2 : (deref_ty_if_possible rhs).references_error = false := by
    rw [references_error_deref]; exact hre
  rcases h with ⟨m, t, hd⟩ | ⟨m, t, hd⟩
  · rw [hd] at h1
    simp only [Ty.references_error] at h1
    cases hcat : BinOpCategory.fromOp op
    case shortcircuit => exact absurd hcat hsc
    all_goals
      simp only [is_builtin_binop]
      rw [hcat, hd]
      simp [Ty.references_error, Ty.is_integral, Ty.is_floating_point,
        Ty.is_bool, Ty.is_scalar, h1, h2]
  · rw [hd] at h2
    simp only [Ty.references_error] at h2
    cases hcat : BinOpCategory.fromOp op
    case shortcircuit => exact absurd hcat hsc
    all_goals
      simp only [is_builtin_binop]
      rw [hcat, hd]
      simp [Ty.references_error, Ty.is_integral, Ty.is_floating_point,
        Ty.is_bool, Ty.is_scalar, h1, h2]

/-- C10: for every short-circuit operator expression, check_binop returns the
boolean type unconditionally — whatever types the operands come back with
(even the error sentinel, when an operand fails to coerce to boolean), the
whole expression's type is boolean and never the error-sentinel type. -/
theorem C10_shortcircuit_type_is_bool (env : Env) (expr l r : ExprId)
    (st : St) :
    (check_binop env expr l r .and st).1 = Ty.bool
    ∧ (check_binop env expr l r .or st).1 = Ty.bool
    ∧ (check_binop env expr l r .and st).1 ≠ Ty.err
    ∧ (check_binop env expr l r .or st).1 ≠ Ty.err := by
  refine ⟨rfl, rfl, ?_, ?_⟩ <;> simp [check_binop, BinOpCategory.fromOp]

/-- C10 witness: concrete instance in which both operands fail to coerce to
boolean (they check as the error sentinel) and the expression is still typed
boolean. -/
theorem C10_shortcircuit_type_is_bool_witness :
    (check_binop envC10w 0 1 2 .and ⟨0, false, []⟩).1 = Ty.bool
    ∧ (check_binop envC10w 0 1 2 .or ⟨0, false, []⟩).1 ≠ Ty.err :=
  ⟨(C10_shortcircuit_type_is_bool envC10w 0 1 2 ⟨0, false, []⟩).1,
   (C10_shortcircuit_type_is_bool envC10w 0 1 2 ⟨0, false, []⟩).2.2.2⟩

/-- C6: for every short-circuit operator expression, the diverges state after
checking the whole expression equals the diverges state immediately after
checking the left operand alone: the left operand's divergence is saved
before the right operand is checked and restored afterward. -/
theorem C6_divergence_isolation (env : Env) (expr l r : ExprId) (st : St) :
    (check_binop env expr l r .and st).2.diverges
      = (checkExprCoercibleToType env l Ty.bool st).2.diverges
    ∧ (check_binop env expr l r .or st).2.diverges
      = (checkExprCoercibleToType env l Ty.bool st).2.diverges := by
  exact ⟨rfl, rfl⟩

/-- C6 witness: concrete instance with a diverging left operand; the
right operand's unreachability does not leak to the whole expression. -/
theorem C6_divergence_isolation_witness :
    (check_binop envC6w 0 1 2 .and ⟨0, false, []⟩).2.diverges
      = (checkExprCoercibleToType envC6w 1 Ty.bool ⟨0, false, []⟩).2.diverges :=
  (C6_divergence_isolation envC6w 0 1 2 ⟨0, false, []⟩).1

/-- C5: for every check of a short-circuit operator expression the overload
resolver is never invoked — the log of the whole check consists of exactly
the two boolean-coercibility checks of the operands and contains no
resolverInvoked event — and a short-circuit operator passed to the
overload-resolution method-name table has no entry, so lookup_op_method
answers with the hard internal-consistency failure (span_bug) rather than
handling it silently. -/
theorem C5_shortcircuit_never_reaches_resolver (env : Env)
    (expr l r : ExprId) (st : St) (lt : Ty) (nm : String) (tys : List Ty)
    (ia : IsAssign) :
    (check_binop env expr l r .and st).2.log
      = st.log ++ [.checkedCoercible l Ty.bool, .checkedCoercible r Ty.bool]
    ∧ (check_binop env expr l r .or st).2.log
      = st.log ++ [.checkedCoercible l Ty.bool, .checkedCoercible r Ty.bool]
    ∧ Event.resolverInvoked lt nm
        ∉ [Event.checkedCoercible l Ty.bool, Event.checkedCoercible r Ty.bool]
    ∧ op_method_name (.binary .and ia) = none
    ∧ op_method_name (.binary .or ia) = none
    ∧ (lookup_op_method env lt tys (.binary .and ia) st).1
        = .bug (op_bug_msg (.binary .and ia))
    ∧ (lookup_op_method env lt tys (.binary .or ia) st).1
        = .bug (op_bug_msg (.binary .or ia)) := by
  refine ⟨?_, ?_, ?_, ?_, ?_, ?_, ?_⟩
  · simp [check_binop, BinOpCategory.fromOp, checkExprCoercibleToType, emit]
  · simp [check_binop, BinOpCategory.fromOp, checkExprCoercibleToType, emit]
  · simp
  · cases ia <;> rfl
  · cases ia <;> rfl
  · cases ia <;> rfl
  · cases ia <;> rfl

/-- C5 witness: concrete short-circuit check whose log holds no resolver
invocation, and the concrete table misses for the and-operator. -/
theorem C5_shortcircuit_never_reaches_resolver_witness :
    (check_binop envC5w 0 1 2 .and ⟨0, false, []⟩).2.log
      = [.checkedCoercible 1 Ty.bool, .checkedCoercible 2 Ty.bool]
    ∧ op_method_name (.binary .and .no) = none :=
  ⟨(C5_shortcircuit_never_reaches_resolver envC5w 0 1 2 ⟨0, false, []⟩
      Ty.bool ("") [] .no).1,
   (C5_shortcircuit_never_reaches_resolver envC5w 0 1 2 ⟨0, false, []⟩
      Ty.bool ("") [] .no).2.2.2.1⟩

theorem mem_autoref_isOutcome {ev : Event} {e : ExprId} {input : Ty}
    (h : ev ∈ autorefAdjustment e input) : ev.isOutcome = true := by
  cases input <;> simp [autorefAdjustment] at h
  subst h
  rfl

theorem enforce_log_eq (lhs_ty rhs_ty : Ty) (op : BinOpKind) (st : St) :
    (enforce_builtin_binop_types lhs_ty rhs_ty op st).2.log
      = st.log ++ enforceDemands lhs_ty rhs_ty op := by
  cases hcat : BinOpCategory.fromOp op <;>
  · simp only [enforce_builtin_binop_types, enforceDemands]
    rw [hcat]
    simp [demandSuptype, emit]

theorem enforce_fst_eq (lhs_ty rhs_ty : Ty) (op : BinOpKind) (st : St) :
    (enforce_builtin_binop_types lhs_ty rhs_ty op st).1
      = enforceResultTy lhs_ty rhs_ty op := by
  cases hcat : BinOpCategory.fromOp op <;>
  · simp only [enforce_builtin_binop_types, enforceResultTy]
    rw [hcat]

theorem mem_errTail_isOutcome {ev : Event} {a b : Ty} {ia : IsAssign}
    (h : ev ∈ errTailEvents a b ia) : ev.isOutcome = true := by
  revert h
  unfold errTailEvents
  split_ifs <;> intro h <;> simp at h
  subst h
  rfl

theorem mem_okTail_isOutcome {ev : Event} {expr l r : ExprId}
    {op : BinOpKind} {ia : IsAssign} {m : MethodCallee}
    (h : ev ∈ okTailEvents expr l r op ia m) : ev.isOutcome = true := by
  simp only [okTailEvents, List.mem_append, List.mem_singleton] at h
  rcases h with (h | h) | h
  · revert h
    split_ifs <;> intro h
    · exact mem_autoref_isOutcome h
    · simp at h
  · revert h
    split_ifs <;> intro h
    · exact mem_autoref_isOutcome h
    · simp at h
  · subst h
    rfl

theorem mem_enforceDemands_shape {ev : Event} {a b : Ty} {op : BinOpKind}
    (h : ev ∈ enforceDemands a b op) :
    ∃ x y, ev = Event.demandedSuptype x y := by
  rcases hcat : BinOpCategory.fromOp op <;>
    rw [enforceDemands, hcat] at h <;> simp at h
  · rcases h with h | h <;> exact ⟨_, _, h⟩
  · exact ⟨_, _, h⟩
  · exact ⟨_, _, h⟩
  · exact ⟨_, _, h⟩

theorem overloaded_ok (env : Env) (expr l r : ExprId) (op : BinOpKind)
    (ia : IsAssign) (st : St) (name : String) (m : MethodCallee)
    (hname : op_method_name (.binary op ia) = some name)
    (hm : env.lookupMethod (lhsTyOf env l ia st.nextVar)
        [Ty.tyVar (rhsVarIdx ia st.nextVar)] name = some m) :
    check_overloaded_binop env expr l r op ia st
      = ((lhsTyOf env l ia st.nextVar,
          rhsTyOf env r (rhsVarIdx ia st.nextVar), m.sig.output),
         ⟨st.nextVar + overloadVarCount ia,
          st.diverges || env.exprDiverges l || env.exprDiverges r,
          st.log ++ lhsPhaseEvents l ia st.nextVar
            ++ [.resolverInvoked (lhsTyOf env l ia st.nextVar) name,
                .checkedCoercible r (Ty.tyVar (rhsVarIdx ia st.nextVar))]
            ++ okTailEvents expr l r op ia m⟩) := by
  cases ia <;>
  · simp only [lhsTyOf, rhsVarIdx] at hm
    simp only [check_overloaded_binop, checkExprWithNeeds, nextTyVar,
      demandCoerce, checkExprCoercibleToType, lookup_op_method, hname, emit,
      lhsTyOf, rhsVarIdx, rhsTyOf, lhsPhaseEvents, okTailEvents,
      overloadVarCount]
    rw [hm]
    by_cases hbv : op.is_by_value = false <;>
      simp [hbv, List.append_assoc, Bool.or_assoc]

theorem overloaded_err (env : Env) (expr l r : ExprId) (op : BinOpKind)
    (ia : IsAssign) (st : St) (name : String)
    (hname : op_method_name (.binary op ia) = some name)
    (hm : env.lookupMethod (lhsTyOf env l ia st.nextVar)
        [Ty.tyVar (rhsVarIdx ia st.nextVar)] name = none) :
    check_overloaded_binop env expr l r op ia st
      = ((lhsTyOf env l ia st.nextVar,
          rhsTyOf env r (rhsVarIdx ia st.nextVar), Ty.err),
         ⟨st.nextVar + overloadVarCount ia,
          st.diverges || env.exprDiverges l || env.exprDiverges r,
          st.log ++ lhsPhaseEvents l ia st.nextVar
            ++ [.resolverInvoked (lhsTyOf env l ia st.nextVar) name,
                .checkedCoercible r (Ty.tyVar (rhsVarIdx ia st.nextVar))]
            ++ errTailEvents (lhsTyOf env l ia st.nextVar)
                (rhsTyOf env r (rhsVarIdx ia st.nextVar)) ia⟩) := by
  cases ia <;>
  · simp only [lhsTyOf, rhsVarIdx] at hm
    simp only [check_overloaded_binop, checkExprWithNeeds, nextTyVar,
      demandCoerce, checkExprCoercibleToType, lookup_op_method, hname, emit,
      lhsTyOf, rhsVarIdx, rhsTyOf, lhsPhaseEvents, errTailEvents,
      overloadVarCount]
    rw [hm]
    simp [List.append_assoc, Bool.or_assoc]
    split_ifs <;> simp [List.append_assoc]

theorem check_binop_not_sc (env : Env) (expr l r : ExprId) (op : BinOpKind)
    (st : St) (hsc : BinOpCategory.fromOp op ≠ .shortcircuit) :
    check_binop env expr l r op st
      = check_binop_overload_path env expr l r op st := by
  cases hcat : BinOpCategory.fromOp op
  case shortcircuit => exact absurd hcat hsc
  all_goals simp only [check_binop, hcat]

theorem check_binop_log (env : Env) (expr l r : ExprId) (op : BinOpKind)
    (st : St) (name : String)
    (hname : op_method_name (.binary op .no) = some name)
    (hsc : BinOpCategory.fromOp op ≠ .shortcircuit) :
    ∃ mid,
      (check_binop env expr l r op st).2.log
        = st.log ++ lhsPhaseEvents l .no st.nextVar
          ++ [.resolverInvoked (lhsTyOf env l .no st.nextVar) name,
              .checkedCoercible r (Ty.tyVar (st.nextVar + 1))]
          ++ mid
      ∧ (∀ lt rt, Event.builtinQueried lt rt ∈ mid →
           lt = lhsTyOf env l .no st.nextVar
           ∧ rt = rhsTyOf env r (st.nextVar + 1)
           ∧ lt.is_ty_var = false ∧ rt.is_ty_var = false) := by
  rw [check_binop_not_sc env expr l r op st hsc]
  rcases hlook : env.lookupMethod (lhsTyOf env l .no st.nextVar)
      [Ty.tyVar (st.nextVar + 1)] name with _ | m
  case none =>
    have hov := overloaded_err env expr l r op .no st name hname hlook
    by_cases hg : (lhsTyOf env l .no st.nextVar).is_ty_var = false
        ∧ (rhsTyOf env r (st.nextVar + 1)).is_ty_var = false
    case pos =>
      by_cases hbi : is_builtin_binop (lhsTyOf env l .no st.nextVar)
          (rhsTyOf env r (st.nextVar + 1)) op = true
      case pos =>
        refine ⟨errTailEvents (lhsTyOf env l .no st.nextVar)
            (rhsTyOf env r (st.nextVar + 1)) .no
            ++ Event.builtinQueried (lhsTyOf env l .no st.nextVar)
                (rhsTyOf env r (st.nextVar + 1))
              :: (enforceDemands (lhsTyOf env l .no st.nextVar)
                    (rhsTyOf env r (st.nextVar + 1)) op
                  ++ [Event.demandedSuptype
                        (enforceResultTy (lhsTyOf env l .no st.nextVar)
                          (rhsTyOf env r (st.nextVar + 1)) op) Ty.err]),
          ?_, ?_⟩
        · simp only [check_binop_overload_path]
          rw [hov]
          simp [rhsVarIdx, hg.1, hg.2, hbi, demandSuptype, emit,
            enforce_log_eq, enforce_fst_eq, List.append_assoc]
        · intro lt rt h
          simp only [List.mem_append, List.mem_cons, List.mem_singleton] at h
          rcases h with h | h | h | h
          · exact absurd (mem_errTail_isOutcome h) (by simp [Event.isOutcome])
          · simp only [Event.builtinQueried.injEq] at h
            exact ⟨h.1, h.2, h.1 ▸ hg.1, h.2 ▸ hg.2⟩
          · obtain ⟨x, y, hxy⟩ := mem_enforceDemands_shape h
            exact Event.noConfusion hxy
          · simp at h
      case neg =>
        refine ⟨errTailEvents (lhsTyOf env l .no st.nextVar)
            (rhsTyOf env r (st.nextVar + 1)) .no
            ++ [Event.builtinQueried (lhsTyOf env l .no st.nextVar)
                (rhsTyOf env r (st.nextVar + 1))], ?_, ?_⟩
        · simp only [check_binop_overload_path]
          rw [hov]
          simp [rhsVarIdx, hg.1, hg.2, hbi, emit, List.append_assoc]
        · intro lt rt h
          simp only [List.mem_append, List.mem_singleton] at h
          rcases h with h | h
          · exact absurd (mem_errTail_isOutcome h) (by simp [Event.isOutcome])
          · simp only [Event.builtinQueried.injEq] at h
            exact ⟨h.1, h.2, h.1 ▸ hg.1, h.2 ▸ hg.2⟩
    case neg =>
      refine ⟨errTailEvents (lhsTyOf env l .no st.nextVar)
          (rhsTyOf env r (st.nextVar + 1)) .no, ?_, ?_⟩
      · simp only [check_binop_overload_path]
        rw [hov]
        simp [rhsVarIdx, hg, List.append_assoc]
      · intro lt rt h
        exact absurd (mem_errTail_isOutcome h) (by simp [Event.isOutcome])
  case some =>
    have hov := overloaded_ok env expr l r op .no st name m hname hlook
    by_cases hg : (lhsTyOf env l .no st.nextVar).is_ty_var = false
        ∧ (rhsTyOf env r (st.nextVar + 1)).is_ty_var = false
    case pos =>
      by_cases hbi : is_builtin_binop (lhsTyOf env l .no st.nextVar)
          (rhsTyOf env r (st.nextVar + 1)) op = true
      case pos =>
        refine ⟨okTailEvents expr l r op .no m
            ++ Event.builtinQueried (lhsTyOf env l .no st.nextVar)
                (rhsTyOf env r (st.nextVar + 1))
              :: (enforceDemands (lhsTyOf env l .no st.nextVar)
                    (rhsTyOf env r (st.nextVar + 1)) op
                  ++ [Event.demandedSuptype
                        (enforceResultTy (lhsTyOf env l .no st.nextVar)
                          (rhsTyOf env r (st.nextVar + 1)) op) m.sig.output]),
          ?_, ?_⟩
        · simp only [check_binop_overload_path]
          rw [hov]
          simp [rhsVarIdx, hg.1, hg.2, hbi, demandSuptype, emit,
            enforce_log_eq, enforce_fst_eq, List.append_assoc]
        · intro lt rt h
          simp only [List.mem_append, List.mem_cons, List.mem_singleton] at h
          rcases h with h | h | h | h
          · exact absurd (mem_okTail_isOutcome h) (by simp [Event.isOutcome])
          · simp only [Event.builtinQueried.injEq] at h
            exact ⟨h.1, h.2, h.1 ▸ hg.1, h.2 ▸ hg.2⟩
          · obtain ⟨x, y, hxy⟩ := mem_enforceDemands_shape h
            exact Event.noConfusion hxy
          · simp at h
      case neg =>
        refine ⟨okTailEvents expr l r op .no m
            ++ [Event.builtinQueried (lhsTyOf env l .no st.nextVar)
                (rhsTyOf env r (st.nextVar + 1))], ?_, ?_⟩
        · simp only [check_binop_overload_path]
          rw [hov]
          simp [rhsVarIdx, hg.1, hg.2, hbi, emit, List.append_assoc]
        · intro lt rt h
          simp only [List.mem_append, List.mem_singleton] at h
          rcases h with h | h
          · exact absurd (mem_okTail_isOutcome h) (by simp [Event.isOutcome])
          · simp only [Event.builtinQueried.injEq] at h
            exact ⟨h.1, h.2, h.1 ▸ hg.1, h.2 ▸ hg.2⟩
    case neg =>
      refine ⟨okTailEvents expr l r op .no m, ?_, ?_⟩
      · simp only [check_binop_overload_path]
        rw [hov]
        simp [rhsVarIdx, hg, List.append_assoc]
      · intro lt rt h
        exact absurd (mem_okTail_isOutcome h) (by simp [Event.isOutcome])

theorem check_binop_assign_log (env : Env) (expr l r : ExprId)
    (op : BinOpKind) (st : St) (name : String)
    (hname : op_method_name (.binary op .yes) = some name) :
    ∃ mid,
      (check_binop_assign env expr l r op st).2.log
        = st.log ++ lhsPhaseEvents l .yes st.nextVar
          ++ [.resolverInvoked (lhsTyOf env l .yes st.nextVar) name,
              .checkedCoercible r (Ty.tyVar st.nextVar)]
          ++ mid ++ [.checkedLhsAssignable l ("E0067")]
      ∧ (∀ lt rt, Event.builtinQueried lt rt ∈ mid →
           lt = lhsTyOf env l .yes st.nextVar
           ∧ rt = rhsTyOf env r st.nextVar
           ∧ lt.is_ty_var = false ∧ rt.is_ty_var = false)
      ∧ (∀ e' t, Event.coerced e' t ∉ mid) := by
  rcases hlook : env.lookupMethod (lhsTyOf env l .yes st.nextVar)
      [Ty.tyVar st.nextVar] name with _ | m
  case none =>
    have hov := overloaded_err env expr l r op .yes st name hname hlook
    by_cases hg : (lhsTyOf env l .yes st.nextVar).is_ty_var = false
        ∧ (rhsTyOf env r st.nextVar).is_ty_var = false
    case pos =>
      by_cases hbi : is_builtin_binop (lhsTyOf env l .yes st.nextVar)
          (rhsTyOf env r st.nextVar) op = true
      case pos =>
        refine ⟨errTailEvents (lhsTyOf env l .yes st.nextVar)
            (rhsTyOf env r st.nextVar) .yes
            ++ Event.builtinQueried (lhsTyOf env l .yes st.nextVar)
                (rhsTyOf env r st.nextVar)
              :: enforceDemands (lhsTyOf env l .yes st.nextVar)
                  (rhsTyOf env r st.nextVar) op, ?_, ?_, ?_⟩
        · simp only [check_binop_assign]
          rw [hov]
          simp [rhsVarIdx, hg.1, hg.2, hbi, emit, enforce_log_eq,
            List.append_assoc]
        · intro lt rt h
          simp only [List.mem_append, List.mem_cons] at h
          rcases h with h | h | h
          · exact absurd (mem_errTail_isOutcome h) (by simp [Event.isOutcome])
          · simp only [Event.builtinQueried.injEq] at h
            exact ⟨h.1, h.2, h.1 ▸ hg.1, h.2 ▸ hg.2⟩
          · obtain ⟨x, y, hxy⟩ := mem_enforceDemands_shape h
            exact Event.noConfusion hxy
        · intro e' t h
          simp only [List.mem_append, List.mem_cons] at h
          rcases h with h | h | h
          · exact absurd (mem_errTail_isOutcome h) (by simp [Event.isOutcome])
          · exact Event.noConfusion h
          · obtain ⟨x, y, hxy⟩ := mem_enforceDemands_shape h
            exact Event.noConfusion hxy
      case neg =>
        refine ⟨errTailEvents (lhsTyOf env l .yes st.nextVar)
            (rhsTyOf env r st.nextVar) .yes
            ++ [Event.builtinQueried (lhsTyOf env l .yes st.nextVar)
                (rhsTyOf env r st.nextVar)], ?_, ?_, ?_⟩
        · simp only [check_binop_assign]
          rw [hov]
          simp [rhsVarIdx, hg.1, hg.2, hbi, emit, List.append_assoc]
        · intro lt rt h
          simp only [List.mem_append, List.mem_singleton] at h
          rcases h with h | h
          · exact absurd (mem_errTail_isOutcome h) (by simp [Event.isOutcome])
          · simp only [Event.builtinQueried.injEq] at h
            exact ⟨h.1, h.2, h.1 ▸ hg.1, h.2 ▸ hg.2⟩
        · intro e' t h
          simp only [List.mem_append, List.mem_singleton] at h
          rcases h with h | h
          · exact absurd (mem_errTail_isOutcome h) (by simp [Event.isOutcome])
          · exact Event.noConfusion h
    case neg =>
      refine ⟨errTailEvents (lhsTyOf env l .yes st.nextVar)
          (rhsTyOf env r st.nextVar) .yes, ?_, ?_, ?_⟩
      · simp only [check_binop_assign]
        rw [hov]
        simp [rhsVarIdx, hg, emit, List.append_assoc]
      · intro lt rt h
        exact absurd (mem_errTail_isOutcome h) (by simp [Event.isOutcome])
      · intro e' t h
        exact absurd (mem_errTail_isOutcome h) (by simp [Event.isOutcome])
  case some =>
    have hov := overloaded_ok env expr l r op .yes st name m hname hlook
    by_cases hg : (lhsTyOf env l .yes st.nextVar).is_ty_var = false
        ∧ (rhsTyOf env r st.nextVar).is_ty_var = false
    case pos =>
      by_cases hbi : is_builtin_binop (lhsTyOf env l .yes st.nextVar)
          (rhsTyOf env r st.nextVar) op = true
      case pos =>
        refine ⟨okTailEvents expr l r op .yes m
            ++ Event.builtinQueried (lhsTyOf env l .yes st.nextVar)
                (rhsTyOf env r st.nextVar)
              :: enforceDemands (lhsTyOf env l .yes st.nextVar)
                  (rhsTyOf env r st.nextVar) op, ?_, ?_, ?_⟩
        · simp only [check_binop_assign]
          rw [hov]
          simp [rhsVarIdx, hg.1, hg.2, hbi, emit, enforce_log_eq,
            List.append_assoc]
        · intro lt rt h
          simp only [List.mem_append, List.mem_cons] at h
          rcases h with h | h | h
          · exact absurd (mem_okTail_isOutcome h) (by simp [Event.isOutcome])
          · simp only [Event.builtinQueried.injEq] at h
            exact ⟨h.1, h.2, h.1 ▸ hg.1, h.2 ▸ hg.2⟩
          · obtain ⟨x, y, hxy⟩ := mem_enforceDemands_shape h
            exact Event.noConfusion hxy
        · intro e' t h
          simp only [List.mem_append, List.mem_cons] at h
          rcases h with h | h | h
          · exact absurd (mem_okTail_isOutcome h) (by simp [Event.isOutcome])
          · exact Event.noConfusion h
          · obtain ⟨x, y, hxy⟩ := mem_enforceDemands_shape h
            exact Event.noConfusion hxy
      case neg =>
        refine ⟨okTailEvents expr l r op .yes m
            ++ [Event.builtinQueried (lhsTyOf env l .yes st.nextVar)
                (rhsTyOf env r st.nextVar)], ?_, ?_, ?_⟩
        · simp only [check_binop_assign]
          rw [hov]
          simp [rhsVarIdx, hg.1, hg.2, hbi, emit, List.append_assoc]
        · intro lt rt h
          simp only [List.mem_append, List.mem_singleton] at h
          rcases h with h | h
          · exact absurd (mem_okTail_isOutcome h) (by simp [Event.isOutcome])
          · simp only [Event.builtinQueried.injEq] at h
            exact ⟨h.1, h.2, h.1 ▸ hg.1, h.2 ▸ hg.2⟩
        · intro e' t h
          simp only [List.mem_append, List.mem_singleton] at h
          rcases h with h | h
          · exact absurd (mem_okTail_isOutcome h) (by simp [Event.isOutcome])
          · exact Event.noConfusion h
    case neg =>
      refine ⟨okTailEvents expr l r op .yes m, ?_, ?_, ?_⟩
      · simp only [check_binop_assign]
        rw [hov]
        simp [rhsVarIdx, hg, emit, List.append_assoc]
      · intro lt rt h
        exact absurd (mem_okTail_isOutcome h) (by simp [Event.isOutcome])
      · intro e' t h
        exact absurd (mem_okTail_isOutcome h) (by simp [Event.isOutcome])

theorem adjusted_mem_autoref {e' : ExprId} {targ : Ty}
    {mu : AutoBorrowMutability} {e : ExprId} {input : Ty} :
    Event.adjusted e' targ mu ∈ autorefAdjustment e input
      ↔ (e' = e ∧ targ = input
         ∧ ∃ mutbl inner, input = Ty.ref mutbl inner
             ∧ mu = autoBorrowOf mutbl) := by
  cases input <;> simp [autorefAdjustment]

/-- C1: after stripping at most one layer of immutable-reference indirection
from each operand type, the builtin classification holds: a Math (arithmetic)
operator is builtin iff both stripped types are integral, or both are
floating point, or either references an error; a Bitwise operator
additionally qualifies when both are boolean; a Comparison operator is
builtin iff both stripped types are scalar or either references an error;
and, when neither operand type references an error, an operand behind two
reference layers or behind a mutable reference disqualifies the pair for
every non-shortcircuit operator. -/
theorem C1_builtin_classification (lhs rhs : Ty) (op : BinOpKind) :
    (BinOpCategory.fromOp op = .math →
      (is_builtin_binop lhs rhs op = true ↔
        ((deref_ty_if_possible lhs).references_error = true
         ∨ (deref_ty_if_possible rhs).references_error = true
         ∨ ((deref_ty_if_possible lhs).is_integral = true
            ∧ (deref_ty_if_possible rhs).is_integral = true)
         ∨ ((deref_ty_if_possible lhs).is_floating_point = true
            ∧ (deref_ty_if_possible rhs).is_floating_point = true))))
    ∧ (BinOpCategory.fromOp op = .bitwise →
      (is_builtin_binop lhs rhs op = true ↔
        ((deref_ty_if_possible lhs).references_error = true
         ∨ (deref_ty_if_possible rhs).references_error = true
         ∨ ((deref_ty_if_possible lhs).is_integral = true
            ∧ (deref_ty_if_possible rhs).is_integral = true)
         ∨ ((deref_ty_if_possible lhs).is_floating_point = true
            ∧ (deref_ty_if_possible rhs).is_floating_point = true)
         ∨ ((deref_ty_if_possible lhs).is_bool = true
            ∧ (deref_ty_if_possible rhs).is_bool = true))))
    ∧ (BinOpCategory.fromOp op = .comparison →
      (is_builtin_binop lhs rhs op = true ↔
        ((deref_ty_if_possible lhs).references_error = true
         ∨ (deref_ty_if_possible rhs).references_error = true
         ∨ ((deref_ty_if_possible lhs).is_scalar = true
            ∧ (deref_ty_if_possible rhs).is_scalar = true))))
    ∧ (BinOpCategory.fromOp op ≠ .shortcircuit →
        lhs.references_error = false → rhs.references_error = false →
        (((∃ m t, lhs = Ty.ref .not (Ty.ref m t)) ∨ (∃ t, lhs = Ty.ref .mut' t)
            → is_builtin_binop lhs rhs op = false)
         ∧ ((∃ m t, rhs = Ty.ref .not (Ty.ref m t)) ∨ (∃ t, rhs = Ty.ref .mut' t)
            → is_builtin_binop lhs rhs op = false))) := by
  refine ⟨?_, ?_, ?_, ?_⟩
  · intro h
    simp only [is_builtin_binop]
    rw [h]
    simp only [Bool.or_eq_true, Bool.and_eq_true]
    tauto
  · intro h
    simp only [is_builtin_binop]
    rw [h]
    simp only [Bool.or_eq_true, Bool.and_eq_true]
    tauto
  · intro h
    simp only [is_builtin_binop]
    rw [h]
    simp only [Bool.or_eq_true, Bool.and_eq_true]
    tauto
  · intro hsc hle hre
    constructor
    · intro hcase
      refine builtin_false_of_ref_operand lhs rhs op hsc (Or.inl ?_) hle hre
      rcases hcase with ⟨m, t, h⟩ | ⟨t, h⟩ <;> subst h
      · exact ⟨m, t, rfl⟩
      · exact ⟨.mut', t, rfl⟩
    · intro hcase
      refine builtin_false_of_ref_operand lhs rhs op hsc (Or.inr ?_) hle hre
      rcases hcase with ⟨m, t, h⟩ | ⟨t, h⟩ <;> subst h
      · exact ⟨m, t, rfl⟩
      · exact ⟨.mut', t, rfl⟩

/-- C1 witness: a reference-to-float left operand with a float right operand
is builtin for addition (one stripped layer), while a double reference or a
mutable reference on the left does not qualify. -/
theorem C1_builtin_classification_witness :
    is_builtin_binop (Ty.ref .not (Ty.float 32)) (Ty.float 32) .add = true
    ∧ is_builtin_binop (Ty.ref .not (Ty.ref .not (Ty.float 32))) (Ty.float 32) .add = false
    ∧ is_builtin_binop (Ty.ref .mut' (Ty.float 32)) (Ty.float 32) .add = false := by
  refine ⟨?_, ?_, ?_⟩
  · exact ((C1_builtin_classification (Ty.ref .not (Ty.float 32)) (Ty.float 32)
      .add).1 rfl).mpr (by decide)
  · exact ((C1_builtin_classification (Ty.ref .not (Ty.ref .not (Ty.float 32)))
      (Ty.float 32) .add).2.2.2 (by decide) (by decide) (by decide)).1
      (Or.inl ⟨.not, Ty.float 32, rfl⟩)
  · exact ((C1_builtin_classification (Ty.ref .mut' (Ty.float 32))
      (Ty.float 32) .add).2.2.2 (by decide) (by decide) (by decide)).1
      (Or.inr ⟨Ty.float 32, rfl⟩)

/-- C2 counterexample: a builtin shift whose left operand is a reference to
an integral type.  The pair is builtin (the stripped types are integral),
but the derived result type is the stripped type, not the pre-normalization
left operand type the claim asserts. -/
theorem C2_counterexample :
    is_builtin_binop (Ty.ref .not (Ty.uint 32)) (Ty.uint 32) .shl = true
    ∧ (enforce_builtin_binop_types (Ty.ref .not (Ty.uint 32)) (Ty.uint 32) .shl
        ⟨0, false, []⟩).1 ≠ Ty.ref .not (Ty.uint 32) := by
  exact ⟨rfl, by decide⟩

/-- C2 (amended): for every builtin shift operation the derived result type
equals the left operand's type after the single-layer immutable-reference
normalization (so for a non-reference integral left operand it is exactly the
left operand's type), and no type constraint is recorded against the right
operand relative to the left (the log is unchanged). -/
theorem C2_shift_result_type (lhs rhs : Ty) (op : BinOpKind) (st : St)
    (hcat : BinOpCategory.fromOp op = .shift)
    (hb : is_builtin_binop lhs rhs op = true) :
    (enforce_builtin_binop_types lhs rhs op st).1 = deref_ty_if_possible lhs
    ∧ (enforce_builtin_binop_types lhs rhs op st).2.log = st.log
    ∧ (lhs.is_integral = true →
        (enforce_builtin_binop_types lhs rhs op st).1 = lhs) := by
  have hd : ∀ u : Ty, u.is_integral = true → deref_ty_if_possible u = u := by
    intro u hu
    cases u <;> simp_all [Ty.is_integral, deref_ty_if_possible]
  refine ⟨?_, ?_, ?_⟩
  · simp only [enforce_builtin_binop_types]
    rw [hcat]
  · simp only [enforce_builtin_binop_types]
    rw [hcat]
  · intro hi
    simp only [enforce_builtin_binop_types]
    rw [hcat]
    exact hd lhs hi

/-- C2 witness: shifting a 32-bit unsigned integer by an 8-bit unsigned
integer is builtin and the result type is the left operand type. -/
theorem C2_shift_result_type_witness :
    (enforce_builtin_binop_types (Ty.uint 32) (Ty.uint 8) .shl
      ⟨0, false, []⟩).1 = Ty.uint 32 :=
  (C2_shift_result_type (Ty.uint 32) (Ty.uint 8) .shl ⟨0, false, []⟩ rfl rfl).2.2 rfl

/-- C3: for every builtin Math or Bitwise operation, the right operand type
is asserted to be a subtype-compatible match of the left operand type (one
demandedSuptype record with the normalized left operand type as expected and
the normalized right operand type as actual) and the derived result type is
the normalized left operand type — hence exactly the left operand type for
any integral left operand, e.g. result_type(T, T, Add) = T; for every
builtin Comparison the operand types are likewise asserted to match and the
result type is boolean (the constant boolean type, not a function of the
operand type). -/
theorem C3_equal_type_rules (lhs rhs : Ty) (op : BinOpKind) (st : St) :
    ((BinOpCategory.fromOp op = .math ∨ BinOpCategory.fromOp op = .bitwise) →
      is_builtin_binop lhs rhs op = true →
      ((enforce_builtin_binop_types lhs rhs op st).1 = deref_ty_if_possible lhs
       ∧ (enforce_builtin_binop_types lhs rhs op st).2.log
           = st.log ++ [.demandedSuptype (deref_ty_if_possible lhs)
               (deref_ty_if_possible rhs)]
       ∧ (lhs.is_integral = true →
           (enforce_builtin_binop_types lhs rhs op st).1 = lhs)))
    ∧ (BinOpCategory.fromOp op = .comparison →
       is_builtin_binop lhs rhs op = true →
       ((enforce_builtin_binop_types lhs rhs op st).1 = Ty.bool
        ∧ (enforce_builtin_binop_types lhs rhs op st).2.log
            = st.log ++ [.demandedSuptype (deref_ty_if_possible lhs)
                (deref_ty_if_possible rhs)])) := by
  have hd : ∀ u : Ty, u.is_integral = true → deref_ty_if_possible u = u := by
    intro u hu
    cases u <;> simp_all [Ty.is_integral, deref_ty_if_possible]
  constructor
  · intro hcat _
    rcases hcat with h | h <;>
    · refine ⟨?_, ?_, ?_⟩
      · simp only [enforce_builtin_binop_types]
        rw [h]
      · simp only [enforce_builtin_binop_types]
        rw [h]
        simp [demandSuptype, emit]
      · intro hi
        simp only [enforce_builtin_binop_types]
        rw [h]
        exact hd lhs hi
  · intro h _
    constructor
    · simp only [enforce_builtin_binop_types]
      rw [h]
    · simp only [enforce_builtin_binop_types]
      rw [h]
      simp [demandSuptype, emit]

/-- C3 witness: *i32 + i32* is builtin with result type i32 and one
equal-type assertion; *i32 == i32* is builtin with boolean result type. -/
theorem C3_equal_type_rules_witness :
    (enforce_builtin_binop_types (Ty.int 32) (Ty.int 32) .add
      ⟨0, false, []⟩).1 = Ty.int 32
    ∧ (enforce_builtin_binop_types (Ty.int 32) (Ty.int 32) .eq
      ⟨0, false, []⟩).1 = Ty.bool :=
  ⟨((C3_equal_type_rules (Ty.int 32) (Ty.int 32) .add ⟨0, false, []⟩).1
      (Or.inl rfl) rfl).2.2 rfl,
   ((C3_equal_type_rules (Ty.int 32) (Ty.int 32) .eq ⟨0, false, []⟩).2
      rfl rfl).1⟩

/-- C7: for every compound-assignment expression the left operand is checked
demanding an exact mutable place (checkedExpr with Needs.mutPlace) with no
coercion event for any operand, and the assignable-place check (error code
E0067) is performed on every execution path — whatever the overload lookup
answers. -/
theorem C7_compound_assign_exact_place (env : Env) (expr l r : ExprId)
    (op : BinOpKind) (name : String) (n : Nat) (d : Bool)
    (hname : op_method_name (.binary op .yes) = some name) :
    Event.checkedExpr l Needs.mutPlace
        ∈ (check_binop_assign env expr l r op ⟨n, d, []⟩).2.log
    ∧ Event.checkedLhsAssignable l ("E0067")
        ∈ (check_binop_assign env expr l r op ⟨n, d, []⟩).2.log
    ∧ (∀ e' t, Event.coerced e' t
        ∉ (check_binop_assign env expr l r op ⟨n, d, []⟩).2.log) := by
  obtain ⟨mid, hlog, _, hco⟩ :=
    check_binop_assign_log env expr l r op ⟨n, d, []⟩ name hname
  refine ⟨?_, ?_, ?_⟩
  · rw [hlog]
    simp [lhsPhaseEvents]
  · rw [hlog]
    simp [lhsPhaseEvents]
  · intro e' t h
    rw [hlog] at h
    simp [lhsPhaseEvents] at h
    exact hco e' t h

/-- C7 witness: concrete compound assignment in which an AddAssign-style
impl exists; the mutable-place demand and the assignable-place check still
both happen. -/
theorem C7_compound_assign_exact_place_witness :
    Event.checkedExpr 1 Needs.mutPlace
        ∈ (check_binop_assign envC7w 0 1 2 .add ⟨0, false, []⟩).2.log
    ∧ Event.checkedLhsAssignable 1 ("E0067")
        ∈ (check_binop_assign envC7w 0 1 2 .add ⟨0, false, []⟩).2.log :=
  ⟨(C7_compound_assign_exact_place envC7w 0 1 2 .add ("add_assign") 0 false
      rfl).1,
   (C7_compound_assign_exact_place envC7w 0 1 2 .add ("add_assign") 0 false
      rfl).2.1⟩

/-- C8: error sentinels silence operator diagnostics.  First, a type that
references the error sentinel on either side always qualifies as builtin for
every binary operator.  Second, when overload lookup fails for a binary
(or compound-assignment) operator and either resolved operand type
references the error sentinel, no diagnostic is emitted and the error
sentinel is returned.  Third, the same holds for unary operators through
check_user_unop (error code E0600 is only emitted for non-error operand
types). -/
theorem C8_error_sentinel_silence :
    (∀ (lhs rhs : Ty) (op : BinOpKind),
      lhs.references_error = true ∨ rhs.references_error = true →
      is_builtin_binop lhs rhs op = true)
    ∧ (∀ (env : Env) (expr l r : ExprId) (op : BinOpKind) (ia : IsAssign)
        (name : String) (n : Nat) (d : Bool),
        op_method_name (.binary op ia) = some name →
        env.lookupMethod (lhsTyOf env l ia n)
            [Ty.tyVar (rhsVarIdx ia n)] name = none →
        ((lhsTyOf env l ia n).references_error = true
         ∨ (rhsTyOf env r (rhsVarIdx ia n)).references_error = true) →
        ((∀ c, Event.emittedDiag c
            ∉ (check_overloaded_binop env expr l r op ia ⟨n, d, []⟩).2.log)
         ∧ (check_overloaded_binop env expr l r op ia ⟨n, d, []⟩).1.2.2
             = Ty.err))
    ∧ (∀ (env : Env) (ex : ExprId) (t : Ty) (op : UnOp) (name : String)
        (n : Nat) (d : Bool),
        op.is_by_value = true →
        op_method_name (.unary op) = some name →
        env.lookupMethod t [] name = none →
        (env.resolveIfPossible t).references_error = true →
        ((∀ c, Event.emittedDiag c
            ∉ (check_user_unop env ex t op ⟨n, d, []⟩).2.log)
         ∧ (check_user_unop env ex t op ⟨n, d, []⟩).1 = Ty.err)) := by
  refine ⟨?_, ?_, ?_⟩
  · intro lhs rhs op h
    cases hcat : BinOpCategory.fromOp op
    case shortcircuit =>
      simp only [is_builtin_binop]
      rw [hcat]
    all_goals simp only [is_builtin_binop]
    all_goals rw [hcat]
    all_goals rcases h with h | h <;> simp [references_error_deref, h]
  · intro env expr l r op ia name n d hname hlook herr
    have hov := overloaded_err env expr l r op ia ⟨n, d, []⟩ name hname hlook
    constructor
    · intro c h
      rw [hov] at h
      cases ia <;>
      · simp only [rhsVarIdx] at herr
        rcases herr with he | he <;>
          simp [lhsPhaseEvents, errTailEvents, rhsVarIdx, he] at h
    · rw [hov]
  · intro env ex t op name n d hbv hname hlook herr
    constructor
    · intro c h
      simp [check_user_unop, hbv, lookup_op_method, hname, hlook, emit,
        herr] at h
    · simp [check_user_unop, hbv, lookup_op_method, hname, hlook, emit, herr]

/-- C8 witness: with both operands erroneous and no impl found, addition
emits no diagnostic and results in the error sentinel. -/
theorem C8_error_sentinel_silence_witness :
    Event.emittedDiag ("E0369")
        ∉ (check_overloaded_binop envC8w 0 1 2 .add .no ⟨0, false, []⟩).2.log
    ∧ (check_overloaded_binop envC8w 0 1 2 .add .no ⟨0, false, []⟩).1.2.2
        = Ty.err :=
  ⟨(C8_error_sentinel_silence.2.1 envC8w 0 1 2 .add .no ("add") 0 false rfl
      rfl (Or.inl (by decide))).1 ("E0369"),
   (C8_error_sentinel_silence.2.1 envC8w 0 1 2 .add .no ("add") 0 false rfl
      rfl (Or.inl (by decide))).2⟩

/-- C9: for every successful overload resolution of a binary operator, an
auto-reference adjustment is inserted at exactly the operand positions whose
callee signature input is reference-typed — the left operand when the
operation is a compound assignment or a pass-by-reference (comparison)
operator, the right operand only for pass-by-reference operators — with the
inserted mutability honoring two-phase-borrow eligibility for mutable
references (autoBorrowOf maps a mutable signature reference to a mutable
auto-borrow with two-phase borrows allowed), and the resolved callee is
recorded against the expression, whose type is the callee's declared output
type. -/
theorem C9_autoref_adjustments (env : Env) (expr l r : ExprId)
    (op : BinOpKind) (ia : IsAssign) (name : String) (m : MethodCallee)
    (n : Nat) (d : Bool)
    (hname : op_method_name (.binary op ia) = some name)
    (hm : env.lookupMethod (lhsTyOf env l ia n)
        [Ty.tyVar (rhsVarIdx ia n)] name = some m)
    (hlr : l ≠ r) :
    (∀ targ mu,
      Event.adjusted l targ mu
          ∈ (check_overloaded_binop env expr l r op ia ⟨n, d, []⟩).2.log
        ↔ ((ia = IsAssign.yes ∨ op.is_by_value = false)
           ∧ targ = m.sig.inputs.getD 0 Ty.err
           ∧ ∃ mutbl inner, m.sig.inputs.getD 0 Ty.err = Ty.ref mutbl inner
               ∧ mu = autoBorrowOf mutbl))
    ∧ (∀ targ mu,
      Event.adjusted r targ mu
          ∈ (check_overloaded_binop env expr l r op ia ⟨n, d, []⟩).2.log
        ↔ (op.is_by_value = false
           ∧ targ = m.sig.inputs.getD 1 Ty.err
           ∧ ∃ mutbl inner, m.sig.inputs.getD 1 Ty.err = Ty.ref mutbl inner
               ∧ mu = autoBorrowOf mutbl))
    ∧ Event.wroteMethodCall expr m
        ∈ (check_overloaded_binop env expr l r op ia ⟨n, d, []⟩).2.log
    ∧ (check_overloaded_binop env expr l r op ia ⟨n, d, []⟩).1.2.2
        = m.sig.output
    ∧ autoBorrowOf .mut' = AutoBorrowMutability.mut' AllowTwoPhase.yes
    ∧ autoBorrowOf .not = AutoBorrowMutability.not := by
  have hov := overloaded_ok env expr l r op ia ⟨n, d, []⟩ name m hname hm
  refine ⟨?_, ?_, ?_, ?_, rfl, rfl⟩
  · intro targ mu
    rw [hov]
    cases ia <;>
      simp [lhsPhaseEvents, okTailEvents, adjusted_mem_autoref, hlr,
        List.mem_append]
  · intro targ mu
    rw [hov]
    have hrl : r ≠ l := fun h => hlr h.symm
    cases ia <;>
      simp [lhsPhaseEvents, okTailEvents, adjusted_mem_autoref, hrl,
        List.mem_append]
  · rw [hov]
    cases ia <;> simp [lhsPhaseEvents, okTailEvents, List.mem_append]
  · rw [hov]

/-- C9 witness: a comparison callee taking the left operand by immutable
reference and the right operand by mutable reference; both adjustments are
inserted with the stated mutabilities, the callee is recorded, and the
expression takes the declared output type. -/
theorem C9_autoref_adjustments_witness :
    Event.adjusted 1 (Ty.ref .not (Ty.adt 3)) AutoBorrowMutability.not
        ∈ (check_overloaded_binop envC9w 0 1 2 .eq .no ⟨0, false, []⟩).2.log
    ∧ Event.adjusted 2 (Ty.ref .mut' (Ty.adt 3))
          (AutoBorrowMutability.mut' AllowTwoPhase.yes)
        ∈ (check_overloaded_binop envC9w 0 1 2 .eq .no ⟨0, false, []⟩).2.log
    ∧ Event.wroteMethodCall 0 mC9
        ∈ (check_overloaded_binop envC9w 0 1 2 .eq .no ⟨0, false, []⟩).2.log
    ∧ (check_overloaded_binop envC9w 0 1 2 .eq .no ⟨0, false, []⟩).1.2.2
        = Ty.bool := by
  have h := C9_autoref_adjustments envC9w 0 1 2 .eq .no ("eq") mC9 0 false
    rfl rfl (by decide)
  exact ⟨(h.1 _ _).mpr ⟨Or.inr rfl, rfl, .not, Ty.adt 3, rfl, rfl⟩,
    (h.2.1 _ _).mpr ⟨rfl, rfl, .mut', Ty.adt 3, rfl, rfl⟩,
    h.2.2.1, h.2.2.2.1⟩

/-- C4 counterexample: the builtin check runs against a type that still
contains an unresolved inference variable.  With the right operand resolving
to an integer-literal inference variable (which is not a general type
variable), check_binop evaluates is_builtin_binop on it even though the type
is not fully concrete, refuting the claim that builtin status is evaluated
only when both resolved operand types contain no unresolved inference
variables. -/
theorem C4_counterexample :
    Event.builtinQueried (Ty.uint 32) (Ty.intVar 7)
        ∈ (check_binop envC4ce 0 1 2 .shl ⟨0, false, []⟩).2.log
    ∧ (Ty.intVar 7).containsInferVar = true
    ∧ (Ty.intVar 7).is_ty_var = false := by
  refine ⟨by decide, rfl, rfl⟩

/-- C4 (amended): for every non-shortcircuit binary operator expression
(plain or compound assignment), overload resolution is attempted first —
the log starts with the left-operand phase, then the resolver invocation
using a fresh placeholder for the right operand created before the right
operand is checked, then the right-operand check against that placeholder —
and the builtin check is evaluated only in the part of the trace after the
right operand has been checked and both operand types resolved, and only
when neither resolved operand type is itself an unresolved general type
variable (the guard is shallow: a type merely containing an inference
variable, such as an integer-literal variable, may still be classified). -/
theorem C4_sequencing (env : Env) (expr l r : ExprId) (op : BinOpKind)
    (name : String) (st : St)
    (hname : op_method_name (.binary op .no) = some name)
    (hsc : BinOpCategory.fromOp op ≠ .shortcircuit) :
    (∃ mid,
      (check_binop env expr l r op st).2.log
        = st.log ++ lhsPhaseEvents l .no st.nextVar
          ++ [.resolverInvoked (lhsTyOf env l .no st.nextVar) name,
              .checkedCoercible r (Ty.tyVar (st.nextVar + 1))]
          ++ mid
      ∧ (∀ lt rt, Event.builtinQueried lt rt ∈ mid →
           lt = lhsTyOf env l .no st.nextVar
           ∧ rt = rhsTyOf env r (st.nextVar + 1)
           ∧ lt.is_ty_var = false ∧ rt.is_ty_var = false))
    ∧ (∀ name2, op_method_name (.binary op .yes) = some name2 →
        ∃ mid2,
          (check_binop_assign env expr l r op st).2.log
            = st.log ++ lhsPhaseEvents l .yes st.nextVar
              ++ [.resolverInvoked (lhsTyOf env l .yes st.nextVar) name2,
                  .checkedCoercible r (Ty.tyVar st.nextVar)]
              ++ mid2 ++ [.checkedLhsAssignable l ("E0067")]
          ∧ (∀ lt rt, Event.builtinQueried lt rt ∈ mid2 →
               lt = lhsTyOf env l .yes st.nextVar
               ∧ rt = rhsTyOf env r st.nextVar
               ∧ lt.is_ty_var = false ∧ rt.is_ty_var = false)) := by
  constructor
  · exact check_binop_log env expr l r op st name hname hsc
  · intro name2 h2
    obtain ⟨mid2, ha, hbq, _⟩ :=
      check_binop_assign_log env expr l r op st name2 h2
    exact ⟨mid2, ha, hbq⟩

/-- C4 witness: concrete shift expression whose trace starts with the
left-operand phase, the resolver invocation on the placeholder, and then the
right-operand check. -/
theorem C4_sequencing_witness :
    Event.checkedCoercible 2 (Ty.tyVar 1)
      ∈ (check_binop envC4w 0 1 2 .shl ⟨0, false, []⟩).2.log := by
  obtain ⟨mid, hlog, _⟩ :=
    (C4_sequencing envC4w 0 1 2 .shl ("shl") ⟨0, false, []⟩ rfl
      (by decide)).1
  rw [hlog]
  simp [lhsPhaseEvents]

end OpCheck

